import Mathlib

/-!
# Verification of the raderbot trading core

Shallow embedding of the signal-execution, backtest and algorithm layers of
the raderbot repository, with theorems checking the natural-language
specification against the code.

Numeric convention: the Rust code computes on `f64`; the embedding uses `ℚ`.
`f64::MAX` is embedded as its exact rational value `(2^53 - 1) * 2^971`.
Wall-clock timestamp fields (`open_time`, `close_time` of positions and
trades, generated from the system clock in the Rust code) are outside the
model; no claim refers to them.
-/

namespace Raderbot

/-- Order side, from `account::trade::OrderSide` (module not among the
provided sources; variants `Long`/`Short` are used in
`src/strategy/signal.rs` and `Buy`/`Sell` in `src/market/trade.rs`). -/
inductive OrderSide where
  | Long
  | Short
  | Buy
  | Sell
deriving DecidableEq, Repr

/-- Algorithm evaluation outcome, from `strategy::types::AlgorithmEvalResult`
(module not among the provided sources; variants `Long`/`Short`/`Ignore` are
matched in `src/strategy/backer.rs`, and `Buy`/`Sell` appear in
`src/algorithm/rsi_ema_sma.rs`). -/
inductive AlgorithmEvalResult where
  | Long
  | Short
  | Buy
  | Sell
  | Ignore
deriving DecidableEq, Repr

/-- Minimal model of a `serde_json::Value` as used by
`parse_usize_from_value` (`src/utils/number.rs`): objects with string keys,
unsigned integers, strings, and an opaque catch-all. -/
inductive JsonValue where
  | nat (n : Nat)
  | str (s : String)
  | obj (fields : List (String × JsonValue))
  | other
deriving Repr

namespace JsonValue

/-- `serde_json::Value::get(key)`: field lookup on an object, `None` on any
other variant. -/
def get (v : JsonValue) (key : String) : Option JsonValue :=
  match v with
  | .obj fields => fields.lookup key
  | _ => none

/-- `serde_json::Value::as_u64`: `Some` exactly on unsigned integers. -/
def as_u64 (v : JsonValue) : Option Nat :=
  match v with
  | .nat n => some n
  | _ => none

end JsonValue

/-- `parse_usize_from_value` from `src/utils/number.rs`: read `key` out of a
JSON value, succeeding only when the field exists and is an unsigned
integer. -/
def parse_usize_from_value (key : String) (value : JsonValue) :
    Except String Nat :=
  match value.get key with
  | some val =>
    match val.as_u64 with
    | some n => Except.ok n
    | none => Except.error "Unable to parse usize from value"
  | none => Except.error "Unable to parse usize from value"

/-- The exact rational value of `f64::MAX`, `(2^53 - 1) * 2^971`. -/
def f64MAX : ℚ := (2 ^ 53 - 1) * 2 ^ 971

/-- One OHLCV candle. Modelled from the spec: `Kline`
(`src/market/kline.rs` is not among the provided sources; the spec's data
model table lists symbol, interval, open/high/low/close, volume, open_time,
close_time). Only the fields the verified code paths read are kept. -/
structure Kline where
  symbol : String
  open_price : ℚ
  high : ℚ
  low : ℚ
  close : ℚ
  volume : ℚ
  open_time : Nat
  close_time : Nat
deriving DecidableEq, Repr

/-- Strategy identifier (`StrategyId = u32`). -/
abbrev StrategyId := Nat

/-- Position identifier. Modelled from the spec: `account::trade::PositionId`
is not among the provided sources; ids are modelled as naturals drawn from a
per-account counter, which keeps them unique. -/
abbrev PositionId := Nat

/-- Execution-policy settings of a strategy
(`strategy::strategy::StrategySettings`; module not among the provided
sources, fields per the spec's data model table and their uses in
`src/strategy/signal.rs`). -/
structure StrategySettings where
  max_open_orders : Nat
  margin_usd : ℚ
  leverage : ℚ
deriving DecidableEq, Repr

/-- An open leveraged position. Modelled from the spec:
`account::trade::Position` is not among the provided sources; the spec lists
id, symbol, side, open_price, margin, leverage, quantity, owning
strategy_id. `Account::open_position` as called from
`src/strategy/signal.rs` takes no strategy id argument, but the spec states
each Position records its owning strategy_id and that
`strategy_open_positions` filters by it, so the model threads the signal's
strategy id through to the created position. -/
structure Position where
  id : PositionId
  strategy_id : StrategyId
  symbol : String
  order_side : OrderSide
  open_price : ℚ
  margin_usd : ℚ
  leverage : ℚ
  quantity : ℚ
deriving DecidableEq, Repr

/-- A closed position with its close price. Modelled from the spec:
`account::trade::TradeTx` is not among the provided sources; the spec says a
Trade is a position snapshot plus close_price/close_time. -/
structure TradeTx where
  position : Position
  close_price : ℚ
deriving DecidableEq, Repr

/-- Realized profit of a closed trade. Modelled from the spec:
`profit = (close_price - open_price) * quantity` for Long, negated for
Short (`TradeTx::calc_profit` is not among the provided sources). `Buy` and
`Sell` are treated like `Long` and `Short`; neither occurs on the verified
paths. -/
def TradeTx.calc_profit (t : TradeTx) : ℚ :=
  match t.position.order_side with
  | .Long => (t.close_price - t.position.open_price) * t.position.quantity
  | .Buy => (t.close_price - t.position.open_price) * t.position.quantity
  | .Short => -((t.close_price - t.position.open_price) * t.position.quantity)
  | .Sell => -((t.close_price - t.position.open_price) * t.position.quantity)

/-- The account ledger. Modelled from the spec: `account::account::Account`
is not among the provided sources; the spec describes a set of open
Positions and a list of closed Trades with a single mutation entry point.
Open positions are kept in insertion order (the code iterates them as a
`Vec` and takes `.last()`). -/
structure Account where
  positions : List Position
  trades : List TradeTx
  next_id : Nat
deriving DecidableEq, Repr

/-- A fresh account with no positions and no trades. -/
def Account.empty : Account := ⟨[], [], 0⟩

/-- `Account::strategy_open_positions`. Modelled from the spec: filters the
open set by owning strategy. -/
def Account.strategy_open_positions (acct : Account) (sid : StrategyId) :
    List Position :=
  acct.positions.filter (fun p => p.strategy_id = sid)

/-- `Account::open_position`. Modelled from the spec: computes
`quantity = margin * leverage / current_price`, creates a Position and adds
it to the open set. -/
def Account.open_position (acct : Account) (symbol : String)
    (margin_usd leverage : ℚ) (side : OrderSide) (sid : StrategyId)
    (current_price : ℚ) : Account :=
  let pos : Position :=
    { id := acct.next_id
      strategy_id := sid
      symbol := symbol
      order_side := side
      open_price := current_price
      margin_usd := margin_usd
      leverage := leverage
      quantity := margin_usd * leverage / current_price }
  { acct with positions := acct.positions ++ [pos], next_id := acct.next_id + 1 }

/-- `Account::close_position`. Modelled from the spec: removes the Position
with the given id from the open set and appends an immutable Trade; a no-op
when no such position is open. -/
def Account.close_position (acct : Account) (pid : PositionId)
    (close_price : ℚ) : Account :=
  match acct.positions.find? (fun p => p.id = pid) with
  | some p =>
    { acct with
      positions := acct.positions.filter (fun q => ¬ q.id = pid)
      trades := acct.trades ++ [⟨p, close_price⟩] }
  | none => acct

/-- A trading decision, from `strategy::types::SignalMessage` (module not
among the provided sources; fields per its construction in
`src/strategy/backer.rs` and its uses in `src/strategy/signal.rs`). -/
structure SignalMessage where
  strategy_id : StrategyId
  order_side : OrderSide
  symbol : String
  price : ℚ
  is_back_test : Bool
  timestamp : Nat
deriving DecidableEq, Repr

/-- The market price source: `Market::last_price(symbol)` abstracted as a
partial map from symbols to last traded prices. -/
def MarketPrices := String → Option ℚ

/-- The registered per-strategy settings of a `SignalManager`
(`active_strategy_settings`), as an association list. -/
def SettingsMap := List (StrategyId × StrategySettings)

/-- Lookup in the settings map (`HashMap::get`). -/
def SettingsMap.get (m : SettingsMap) (sid : StrategyId) :
    Option StrategySettings :=
  List.lookup sid m

/-- The body of `SignalManager::handle_signal`
(`src/strategy/signal.rs`, lines 33-117) after the trigger price has been
resolved. Mirrors the source: snapshot the strategy's open positions; drop
the signal when no settings are registered; if the last open position has
the opposite side, close every snapshotted position at the trigger price;
if it has the same side and the snapshot is below `max_open_orders`, open
one more position; with no open position, open one unconditionally. Every
account action is guarded on the trigger price being present. -/
def handle_signal_with_trigger (settings : SettingsMap) (acct : Account)
    (signal : SignalMessage) (trigger_price : Option ℚ) : Account :=
  let active_positions := acct.strategy_open_positions signal.strategy_id
  match settings.get signal.strategy_id with
  | none => acct
  | some st =>
    match active_positions.getLast? with
    | some last =>
      let acct1 :=
        if signal.order_side ≠ last.order_side then
          match trigger_price with
          | some close_price =>
            active_positions.foldl
              (fun a p => a.close_position p.id close_price) acct
          | none => acct
        else acct
      if signal.order_side = last.order_side ∧
          active_positions.length < st.max_open_orders then
        match trigger_price with
        | some close_price =>
          acct1.open_position signal.symbol st.margin_usd st.leverage
            signal.order_side signal.strategy_id close_price
        | none => acct1
      else acct1
    | none =>
      match trigger_price with
      | some last_price =>
        acct.open_position signal.symbol st.margin_usd st.leverage
          signal.order_side signal.strategy_id last_price
      | none => acct

/-- `SignalManager::handle_signal` (`src/strategy/signal.rs`): the trigger
price is the signal's embedded price for a replay signal and the live last
traded price otherwise, then the decision body runs. -/
def handle_signal (settings : SettingsMap) (market : MarketPrices)
    (acct : Account) (signal : SignalMessage) : Account :=
  handle_signal_with_trigger settings acct signal
    (if signal.is_back_test then some signal.price else market signal.symbol)

/-- Handling a list of signals in order through `handle_signal`. -/
def process_signals (settings : SettingsMap) (market : MarketPrices)
    (acct : Account) (signals : List SignalMessage) : Account :=
  signals.foldl (handle_signal settings market) acct

/-- Number of open positions an account holds for a strategy. -/
def Account.open_count (acct : Account) (sid : StrategyId) : Nat :=
  (acct.strategy_open_positions sid).length

/-- Well-formedness of the modelled ledger: position ids are below the id
counter and pairwise distinct. Holds for the empty account and is preserved
by every ledger operation. -/
def Account.wf (acct : Account) : Prop :=
  (∀ p ∈ acct.positions, p.id < acct.next_id) ∧
  (acct.positions.map Position.id).Nodup

/-! ## BackTest harness (`src/strategy/backer.rs`) -/

/-- `BackTest::calc_max_profit` (`src/strategy/backer.rs`, lines 96-110):
single forward scan tracking `(max_balance, current_balance)`, both started
at `0.0`; `max_balance` is raised whenever the running balance strictly
exceeds it. -/
def calc_max_profit (trades : List TradeTx) : ℚ :=
  (trades.foldl
    (fun st trade_tx =>
      let current_balance := st.2 + trade_tx.calc_profit
      (if st.1 < current_balance then current_balance else st.1,
       current_balance))
    ((0 : ℚ), (0 : ℚ))).1

/-- `BackTest::calc_max_drawdown` (`src/strategy/backer.rs`, lines 112-126):
single forward scan tracking `(min_balance, current_balance)` with
`min_balance` started at `f64::MAX` and `current_balance` at `0.0`;
`min_balance` is lowered whenever the running balance goes strictly below
it. -/
def calc_max_drawdown (trades : List TradeTx) : ℚ :=
  (trades.foldl
    (fun st trade_tx =>
      let current_balance := st.2 + trade_tx.calc_profit
      (if current_balance < st.1 then current_balance else st.1,
       current_balance))
    (f64MAX, (0 : ℚ))).1

/-- Aggregate backtest statistics
(`strategy::strategy::StrategyResult`, fields per its construction in
`src/strategy/backer.rs`). -/
structure StrategyResult where
  profit : ℚ
  long_count : Nat
  short_count : Nat
  symbol : String
  period_end_price : ℚ
  period_start_price : ℚ
  max_drawdown : ℚ
  max_profit : ℚ
deriving DecidableEq, Repr

/-- `BackTest::result` (`src/strategy/backer.rs`, lines 128-178): feed every
recorded signal through `SignalManager::handle_signal`, then force-close
every position still open, passing each position's own `open_price` as the
close price; finally aggregate the realized trades. Returns the
`StrategyResult` together with the final account. -/
def backtest_result (settings : SettingsMap) (market : MarketPrices)
    (acct : Account) (signals : List SignalMessage) (symbol : String)
    (period_start_price period_end_price : ℚ) : StrategyResult × Account :=
  let acct1 := process_signals settings market acct signals
  let active_positions := acct1.positions.map (fun p => (p.id, p.open_price))
  let acct2 := active_positions.foldl
    (fun a item => a.close_position item.1 item.2) acct1
  let trades := acct2.trades
  ({ profit := (trades.map TradeTx.calc_profit).sum
     long_count :=
       (trades.filter (fun t => t.position.order_side = OrderSide.Long)).length
     short_count := trades.length -
       (trades.filter (fun t => t.position.order_side = OrderSide.Long)).length
     symbol := symbol
     period_end_price := period_end_price
     period_start_price := period_start_price
     max_drawdown := calc_max_drawdown trades
     max_profit := calc_max_profit trades },
   acct2)

/-! ### Spec-side metric definitions

Written from the spec's words (for comparison with the code's
`calc_max_profit`/`calc_max_drawdown` above): the values reached by the
running cumulative sum of trade profits, tracked from a zero baseline, are
the prefix sums `List.scanl (· + ·) 0` (whose first element is the baseline
itself). -/

/-- The values reached by the running cumulative profit sum, zero baseline
included. -/
def reached_balances (trades : List TradeTx) : List ℚ :=
  List.scanl (· + ·) 0 (trades.map TradeTx.calc_profit)

/-- Spec reading of `max_profit`: the highest value reached by the running
cumulative sum started from a zero baseline. -/
def spec_max_profit (trades : List TradeTx) : ℚ :=
  (reached_balances trades).foldl max 0

/-- Spec reading of `max_drawdown`: the lowest value reached by the running
cumulative sum started from a zero baseline. -/
def spec_max_drawdown (trades : List TradeTx) : ℚ :=
  (reached_balances trades).foldl min 0

/-! ## Algorithm layer -/

/-- Algorithm construction/configuration errors, from
`strategy::types::AlgorithmError` (module not among the provided sources;
variants and the `UnkownName` spelling per their uses in
`src/strategy/algorithm.rs` and `src/algorithm/ma_crossover.rs`). -/
inductive AlgorithmError where
  | UnknownInterval (msg : String)
  | UnkownName (msg : String)
  | InvalidParams (msg : String)
deriving DecidableEq, Repr

/-- Rust's `Result::unwrap_or`. -/
def unwrap_or (r : Except String Nat) (default : Nat) : Nat :=
  match r with
  | .ok n => n
  | .error _ => default

/-- State of the RSI-gated multi-SMA+EMA algorithm
(`src/algorithm/rsi_ema_sma.rs`, lines 8-18). -/
structure RsiEmaSma where
  data_points : List Kline
  interval : Nat
  params : JsonValue
  rsi_period : Nat
  short_sma_period : Nat
  medium_sma_period : Nat
  long_sma_period : Nat
  ema_period : Nat
  last_ema : ℚ
deriving Repr

/-- `RsiEmaSma::new` (`src/algorithm/rsi_ema_sma.rs`, lines 21-39): every
period falls back to a hardcoded default when absent or unparseable;
construction never fails. -/
def RsiEmaSma.new (interval : Nat) (params : JsonValue) :
    Except AlgorithmError RsiEmaSma :=
  Except.ok
    { data_points := []
      interval := interval
      params := params
      rsi_period := unwrap_or (parse_usize_from_value "rsi_period" params) 14
      short_sma_period :=
        unwrap_or (parse_usize_from_value "short_sma_period" params) 5
      medium_sma_period :=
        unwrap_or (parse_usize_from_value "medium_sma_period" params) 12
      long_sma_period :=
        unwrap_or (parse_usize_from_value "long_sma_period" params) 26
      ema_period := unwrap_or (parse_usize_from_value "ema_period" params) 9
      last_ema := 0 }

/-- `RsiEmaSma::set_params` (`src/algorithm/rsi_ema_sma.rs`, lines 142-161):
`rsi_period`, `short_sma_period`, `medium_sma_period` and `long_sma_period`
fall back to the previously configured value when absent or unparseable,
while `ema_period` falls back to the hardcoded default `9`; the stored
params are replaced wholesale and the call always succeeds. -/
def RsiEmaSma.set_params (s : RsiEmaSma) (params : JsonValue) :
    Except AlgorithmError RsiEmaSma :=
  let rsi_period := unwrap_or (parse_usize_from_value "rsi_period" params)
    s.rsi_period
  let short_sma_period :=
    unwrap_or (parse_usize_from_value "short_sma_period" params)
      s.short_sma_period
  let medium_sma_period :=
    unwrap_or (parse_usize_from_value "medium_sma_period" params)
      s.medium_sma_period
  let long_sma_period :=
    unwrap_or (parse_usize_from_value "long_sma_period" params)
      s.long_sma_period
  let ema_period := unwrap_or (parse_usize_from_value "ema_period" params) 9
  Except.ok
    { s with
      rsi_period := rsi_period
      short_sma_period := short_sma_period
      medium_sma_period := medium_sma_period
      long_sma_period := long_sma_period
      ema_period := ema_period
      params := params }

namespace Ta

/-- `ta::indicators::ExponentialMovingAverage` (external `ta` crate, version
used by `src/algorithm/ma_crossover.rs`): incremental EMA with smoothing
factor `k = 2 / (period + 1)`, seeded with the first input. -/
structure ExponentialMovingAverage where
  period : Nat
  current : ℚ
  is_new : Bool
deriving DecidableEq, Repr

/-- `ExponentialMovingAverage::new`: fails on a zero period. -/
def ExponentialMovingAverage.new (period : Nat) :
    Except String ExponentialMovingAverage :=
  if period = 0 then Except.error "invalid parameter"
  else Except.ok ⟨period, 0, true⟩

/-- `ExponentialMovingAverage::next`: returns the new EMA value and the
updated indicator state. -/
def ExponentialMovingAverage.next (e : ExponentialMovingAverage) (input : ℚ) :
    ℚ × ExponentialMovingAverage :=
  if e.is_new then (input, { e with is_new := false, current := input })
  else
    let k : ℚ := 2 / ((e.period : ℚ) + 1)
    let current := k * input + (1 - k) * e.current
    (current, { e with current := current })

/-- `ta::indicators::SimpleMovingAverage` (external `ta` crate): circular
buffer of the last `period` inputs with a running sum. -/
structure SimpleMovingAverage where
  period : Nat
  index : Nat
  count : Nat
  sum : ℚ
  vec : List ℚ
deriving DecidableEq, Repr

/-- `SimpleMovingAverage::new`: fails on a zero period; the buffer starts
zero-filled. -/
def SimpleMovingAverage.new (period : Nat) :
    Except String SimpleMovingAverage :=
  if period = 0 then Except.error "invalid parameter"
  else Except.ok ⟨period, 0, 0, 0, List.replicate period 0⟩

/-- `SimpleMovingAverage::next`: replace the oldest buffered value, advance
the cursor, and return the mean of the values seen so far (at most
`period` of them) with the updated state. -/
def SimpleMovingAverage.next (s : SimpleMovingAverage) (input : ℚ) :
    ℚ × SimpleMovingAverage :=
  let sum := s.sum - (s.vec.getD s.index 0) + input
  let vec := s.vec.set s.index input
  let index := (s.index + 1) % s.period
  let count := min (s.count + 1) s.period
  (sum / (count : ℚ), ⟨s.period, index, count, sum, vec⟩)

end Ta

/-- State of the EMA/SMA crossover algorithm
(`src/algorithm/ma_crossover.rs`, lines 17-24). -/
structure EmaSmaCrossover where
  data_points : List Kline
  interval : Nat
  ema_period : Nat
  sma_period : Nat
  ema : Ta.ExponentialMovingAverage
  sma : Ta.SimpleMovingAverage
deriving DecidableEq, Repr

/-- `EmaSmaCrossover::new` (`src/algorithm/ma_crossover.rs`, lines 27-46):
both periods must be present and parseable and both indicator constructors
must accept them; any failure is reported as `InvalidParams` and nothing is
built. -/
def EmaSmaCrossover.new (interval : Nat) (algorithm_params : JsonValue) :
    Except AlgorithmError EmaSmaCrossover :=
  match parse_usize_from_value "ema_period" algorithm_params with
  | .error e => Except.error (AlgorithmError.InvalidParams e)
  | .ok ema_period =>
    match parse_usize_from_value "sma_period" algorithm_params with
    | .error e => Except.error (AlgorithmError.InvalidParams e)
    | .ok sma_period =>
      match Ta.ExponentialMovingAverage.new ema_period with
      | .error e => Except.error (AlgorithmError.InvalidParams e)
      | .ok ema =>
        match Ta.SimpleMovingAverage.new sma_period with
        | .error e => Except.error (AlgorithmError.InvalidParams e)
        | .ok sma =>
          Except.ok
            { data_points := []
              interval := interval
              ema_period := ema_period
              sma_period := sma_period
              ema := ema
              sma := sma }

/-- `EmaSmaCrossover::evaluate` (`src/algorithm/ma_crossover.rs`, lines
58-81): buffer the candle; while fewer candles than `sma_period` are
buffered, `Ignore` without touching the indicators; afterwards feed the
close to both indicators and compare EMA against SMA, falling back to a
close-versus-SMA comparison when they are equal. Returns the result and the
updated state. -/
def EmaSmaCrossover.evaluate (st : EmaSmaCrossover) (kline : Kline) :
    AlgorithmEvalResult × EmaSmaCrossover :=
  let st := { st with data_points := st.data_points ++ [kline] }
  if st.sma_period ≤ st.data_points.length then
    let (ema, emaState) := st.ema.next kline.close
    let (sma, smaState) := st.sma.next kline.close
    let st := { st with ema := emaState, sma := smaState }
    if sma < ema then (AlgorithmEvalResult.Long, st)
    else if ema < sma then (AlgorithmEvalResult.Short, st)
    else if sma < kline.close then (AlgorithmEvalResult.Long, st)
    else if kline.close < sma then (AlgorithmEvalResult.Short, st)
    else (AlgorithmEvalResult.Ignore, st)
  else (AlgorithmEvalResult.Ignore, st)

/-! ## Name-keyed algorithm factory (`src/strategy/algorithm.rs`) -/

/-- `build_interval` from `src/utils/time.rs`. Modelled from the spec: the
source file is not among the provided ones; the spec only requires that an
unparseable interval string fails (surfaced as `UnknownInterval` by the
factory). The model accepts the usual exchange interval names. -/
def build_interval (interval : String) : Except String Nat :=
  if interval = "1m" then Except.ok 60000
  else if interval = "5m" then Except.ok 300000
  else if interval = "15m" then Except.ok 900000
  else if interval = "30m" then Except.ok 1800000
  else if interval = "1h" then Except.ok 3600000
  else if interval = "4h" then Except.ok 14400000
  else if interval = "1d" then Except.ok 86400000
  else Except.error "Unable to parse interval"

/-- A fully built algorithm instance: the closed set of variants dispatched
by `AlgorithmBuilder::build_algorithm`. Variants whose source files are
among the provided ones carry their embedded state; the others carry their
construction arguments. -/
inductive AlgorithmInstance where
  | emaSmaCrossover (st : EmaSmaCrossover)
  | simpleMovingAverage (interval : Nat) (params : JsonValue)
  | threeMaCrossover (interval : Nat) (params : JsonValue)
  | rsi (interval : Nat) (params : JsonValue)
  | rsiEmaSma (st : RsiEmaSma)
  | bollingerBands (interval : Nat) (params : JsonValue)
  | macd (interval : Nat) (params : JsonValue)
  | macdBollingerBands (interval : Nat) (params : JsonValue)
deriving Repr

/-- `SimpleMovingAverage::new` (`src/algorithm/ma_simple.rs`). Modelled from
the spec: the source file is not among the provided ones; the spec says
construction is all-or-nothing, with no per-variant validation detail. -/
def simple_moving_average_new (interval : Nat) (params : JsonValue) :
    Except AlgorithmError AlgorithmInstance :=
  Except.ok (AlgorithmInstance.simpleMovingAverage interval params)

/-- `ThreeMaCrossover::new` (`src/algorithm/ma_three_crossover.rs`).
Modelled from the spec, as for `simple_moving_average_new`. -/
def three_ma_crossover_new (interval : Nat) (params : JsonValue) :
    Except AlgorithmError AlgorithmInstance :=
  Except.ok (AlgorithmInstance.threeMaCrossover interval params)

/-- `Rsi::new` (`src/algorithm/rsi.rs`). Modelled from the spec, as for
`simple_moving_average_new`. -/
def rsi_new (interval : Nat) (params : JsonValue) :
    Except AlgorithmError AlgorithmInstance :=
  Except.ok (AlgorithmInstance.rsi interval params)

/-- `BollingerBands::new` (`src/algorithm/bollinger_bands.rs`). Modelled
from the spec, as for `simple_moving_average_new`. -/
def bollinger_bands_new (interval : Nat) (params : JsonValue) :
    Except AlgorithmError AlgorithmInstance :=
  Except.ok (AlgorithmInstance.bollingerBands interval params)

/-- `Macd::new` (`src/algorithm/macd.rs`). Modelled from the spec, as for
`simple_moving_average_new`. -/
def macd_new (interval : Nat) (params : JsonValue) :
    Except AlgorithmError AlgorithmInstance :=
  Except.ok (AlgorithmInstance.macd interval params)

/-- `MacdBollingerBands::new` (`src/algorithm/macd_bollinger.rs`). Modelled
from the spec, as for `simple_moving_average_new`. -/
def macd_bollinger_bands_new (interval : Nat) (params : JsonValue) :
    Except AlgorithmError AlgorithmInstance :=
  Except.ok (AlgorithmInstance.macdBollingerBands interval params)

/-- `AlgorithmBuilder::build_algorithm` (`src/strategy/algorithm.rs`, lines
104-150): parse the interval first (failure is `UnknownInterval`), then
dispatch on the algorithm name; an unrecognized name is `UnkownName`. Note
that, as in the source, the `"RsiEmaSma"` arm calls `Rsi::new`. -/
def build_algorithm (algorithm_name : String) (interval : String)
    (algorithm_params : JsonValue) :
    Except AlgorithmError AlgorithmInstance :=
  match build_interval interval with
  | .error e => Except.error (AlgorithmError.UnknownInterval e)
  | .ok interval =>
    if algorithm_name = "EmaSmaCrossover" then
      (EmaSmaCrossover.new interval algorithm_params).map
        AlgorithmInstance.emaSmaCrossover
    else if algorithm_name = "SimpleMovingAverage" then
      simple_moving_average_new interval algorithm_params
    else if algorithm_name = "ThreeMaCrossover" then
      three_ma_crossover_new interval algorithm_params
    else if algorithm_name = "Rsi" then
      rsi_new interval algorithm_params
    else if algorithm_name = "RsiEmaSma" then
      rsi_new interval algorithm_params
    else if algorithm_name = "BollingerBands" then
      bollinger_bands_new interval algorithm_params
    else if algorithm_name = "Macd" then
      macd_new interval algorithm_params
    else if algorithm_name = "MacdBollingerBands" then
      macd_bollinger_bands_new interval algorithm_params
    else
      Except.error (AlgorithmError.UnkownName
        ("Strategy name " ++ algorithm_name ++ " is incorrect"))

/-! ## Concrete instances used by the closed theorems -/

/-- Settings map registering strategy 1 with `max_open_orders = 2`,
`margin_usd = 25`, `leverage = 4`. -/
def settingsW : SettingsMap := [(1, ⟨2, 25, 4⟩)]

/-- Settings map registering strategy 1 with `max_open_orders = 0`. -/
def settings0 : SettingsMap := [(1, ⟨0, 25, 4⟩)]

/-- A market with no cached last price for any symbol. -/
def marketNone : MarketPrices := fun _ => none

/-- A market quoting 150 for every symbol. -/
def market150 : MarketPrices := fun _ => some 150

/-- A replay Long signal for strategy 1 at price 100. -/
def sigLong : SignalMessage := ⟨1, OrderSide.Long, "BTC-USDT", 100, true, 0⟩

/-- A replay Short signal for strategy 1 at price 200. -/
def sigShort : SignalMessage := ⟨1, OrderSide.Short, "BTC-USDT", 200, true, 1⟩

/-- A live (non-replay) Long signal for strategy 1. -/
def sigLive : SignalMessage := ⟨1, OrderSide.Long, "BTC-USDT", 100, false, 0⟩

/-- A live (non-replay) Short signal for strategy 1; its embedded price 999
is stale and must not be used. -/
def sigLiveShort : SignalMessage :=
  ⟨1, OrderSide.Short, "BTC-USDT", 999, false, 2⟩

/-- One open Long position of strategy 1, opened at 100 with quantity 1. -/
def posL : Position := ⟨0, 1, "BTC-USDT", OrderSide.Long, 100, 25, 4, 1⟩

/-- An account holding exactly the Long position `posL`. -/
def acctL : Account := ⟨[posL], [], 1⟩

/-- A closed Long trade of quantity 1 opened at `o` and closed at `c`,
realizing profit `c - o`. -/
def mkLongTrade (o c : ℚ) : TradeTx :=
  ⟨⟨0, 1, "BTC-USDT", OrderSide.Long, o, 25, 4, 1⟩, c⟩

/-- Four trades realizing profits [+100, -50, +200, -300] in order. -/
def trades4 : List TradeTx :=
  [mkLongTrade 100 200, mkLongTrade 100 50, mkLongTrade 100 300,
   mkLongTrade 400 100]

/-- A single trade realizing profit +100. -/
def tradesP100 : List TradeTx := [mkLongTrade 100 200]

/-- An `RsiEmaSma` instance with non-default periods
(`rsi_period = 42`, `ema_period = 99`). -/
def rsiEmaSmaW : RsiEmaSma := ⟨[], 60000, JsonValue.obj [], 42, 5, 12, 26, 99, 0⟩

/-- The state `rsiEmaSmaW.set_params (JsonValue.obj [])` produces: every
sibling period kept, `ema_period` reset to 9. -/
def rsiEmaSmaW2 : RsiEmaSma := ⟨[], 60000, JsonValue.obj [], 42, 5, 12, 26, 9, 0⟩

/-- A malformed params payload: `rsi_period` present but a string. -/
def badParams : JsonValue := JsonValue.obj [("rsi_period", JsonValue.str "abc")]

/-- The state `rsiEmaSmaW.set_params badParams` produces: the malformed
`rsi_period` silently keeps its previous value. -/
def rsiEmaSmaW3 : RsiEmaSma := ⟨[], 60000, badParams, 42, 5, 12, 26, 9, 0⟩

/-- A flat candle at price `c`. -/
def klineAt (c : ℚ) : Kline := ⟨"BTC-USDT", c, c, c, c, 0, 0, 0⟩

/-- A fresh `EmaSmaCrossover` with `ema_period = sma_period = 2` and no
buffered candles. -/
def crossW : EmaSmaCrossover :=
  ⟨[], 60000, 2, 2, ⟨2, 0, true⟩, ⟨2, 0, 0, 0, [0, 0]⟩⟩

/-- An `EmaSmaCrossover` past warm-up threshold minus one: one buffered
candle, EMA state seeded at 10, SMA state fresh. -/
def crossW2 : EmaSmaCrossover :=
  ⟨[klineAt 3], 60000, 2, 2, ⟨2, 10, false⟩, ⟨2, 0, 0, 0, [0, 0]⟩⟩

/-! ## Theorems -/

/-! ### Ledger helper lemmas -/

/-- Closing a position id filters it out of the open set, whether or not it
was present. -/
lemma close_position_positions (acct : Account) (pid : PositionId) (cp : ℚ) :
    (acct.close_position pid cp).positions =
      acct.positions.filter (fun q => ¬ q.id = pid) := by
  unfold Account.close_position
  cases hf : acct.positions.find? (fun p => p.id = pid) with
  | some p => rfl
  | none =>
    have habs : ∀ q ∈ acct.positions, ¬ (q.id = pid) := by
      intro q hq
      simpa using List.find?_eq_none.mp hf q hq
    simp only []
    exact ((List.filter_eq_self).mpr (by simpa using habs)).symm

/-- Closing a position never changes the id counter. -/
lemma close_position_next_id (acct : Account) (pid : PositionId) (cp : ℚ) :
    (acct.close_position pid cp).next_id = acct.next_id := by
  unfold Account.close_position
  cases acct.positions.find? (fun p => p.id = pid) <;> rfl

/-- A strategy's open positions after a close are its open positions before
with the closed id filtered out. -/
lemma strategy_open_positions_close (acct : Account) (pid : PositionId)
    (cp : ℚ) (sid : StrategyId) :
    (acct.close_position pid cp).strategy_open_positions sid =
      (acct.strategy_open_positions sid).filter (fun q => ¬ q.id = pid) := by
  unfold Account.strategy_open_positions
  rw [close_position_positions, List.filter_comm]

/-- Closing a position cannot raise any strategy's open-position count. -/
lemma open_count_close_le (acct : Account) (pid : PositionId) (cp : ℚ)
    (sid : StrategyId) :
    (acct.close_position pid cp).open_count sid ≤ acct.open_count sid := by
  rw [Account.open_count, Account.open_count, strategy_open_positions_close]
  exact List.length_filter_le _ _

/-- Folding closes over any list of positions cannot raise any strategy's
open-position count. -/
lemma open_count_foldl_close_le (ps : List Position) (acct : Account)
    (cp : ℚ) (sid : StrategyId) :
    ((ps.foldl (fun a p => a.close_position p.id cp) acct)).open_count sid ≤
      acct.open_count sid := by
  induction ps generalizing acct with
  | nil => exact le_rfl
  | cons p ps ih =>
    exact le_trans (ih _) (open_count_close_le acct p.id cp sid)

/-- Opening a position raises the owning strategy's open-position count by
one and leaves every other strategy's count unchanged. -/
lemma open_count_open_position (acct : Account) (symbol : String)
    (margin_usd leverage : ℚ) (side : OrderSide) (sid' : StrategyId)
    (cp : ℚ) (sid : StrategyId) :
    (acct.open_position symbol margin_usd leverage side sid' cp).open_count
        sid =
      acct.open_count sid + (if sid' = sid then 1 else 0) := by
  unfold Account.open_position Account.open_count
    Account.strategy_open_positions
  rw [List.filter_append, List.length_append]
  congr 1
  by_cases h : sid' = sid <;> simp [h]

/-- In a ledger with pairwise-distinct position ids, `find?` by the id of a
member returns that member. -/
lemma find?_id_eq_of_nodup (l : List Position) (p : Position)
    (hnd : (l.map Position.id).Nodup) (hmem : p ∈ l) :
    l.find? (fun q => q.id = p.id) = some p := by
  induction l with
  | nil => cases hmem
  | cons a t ih =>
    rw [List.map_cons, List.nodup_cons] at hnd
    rcases List.mem_cons.mp hmem with rfl | hmem'
    · simp [List.find?_cons]
    · have hne : ¬ (a.id = p.id) := by
        intro he
        have hid := List.mem_map_of_mem Position.id hmem'
        rw [← he] at hid
        exact hnd.1 hid
      rw [List.find?_cons]
      simp [hne, ih hnd.2 hmem']

/-- With no trigger price, `handle_signal` performs no account action. -/
lemma handle_signal_with_trigger_none (settings : SettingsMap)
    (acct : Account) (signal : SignalMessage) :
    handle_signal_with_trigger settings acct signal none = acct := by
  cases hset : SettingsMap.get settings signal.strategy_id with
  | none => simp [handle_signal_with_trigger, hset]
  | some st =>
    cases hl : (acct.strategy_open_positions signal.strategy_id).getLast? with
    | none => simp [handle_signal_with_trigger, hset, hl]
    | some last =>
      by_cases hside : signal.order_side = last.order_side <;>
        simp [handle_signal_with_trigger, hset, hl, hside]

/-- C7: a replay signal executes at exactly its embedded price, never
consulting the market; a live signal executes at the market's last traded
price, and when that lookup returns nothing the signal is skipped and the
account is left unchanged. -/
theorem C7_trigger_price_policy (settings : SettingsMap)
    (market : MarketPrices) (acct : Account) (signal : SignalMessage) :
    (signal.is_back_test = true →
      handle_signal settings market acct signal =
        handle_signal_with_trigger settings acct signal
          (some signal.price)) ∧
    (signal.is_back_test = false →
      handle_signal settings market acct signal =
        handle_signal_with_trigger settings acct signal
          (market signal.symbol) ∧
      (market signal.symbol = none →
        handle_signal settings market acct signal = acct)) := by
  refine ⟨fun h => ?_, fun h => ⟨?_, fun hm => ?_⟩⟩
  · simp [handle_signal, h]
  · simp [handle_signal, h]
  · simp [handle_signal, h, hm, handle_signal_with_trigger_none]

/-- Witness for C7: a concrete replay signal executes at its embedded
price even on a market quoting a different price, and a concrete live
signal on a market with no cached price leaves the account unchanged. -/
theorem C7_trigger_price_policy_witness :
    handle_signal settingsW market150 acctL sigShort =
      handle_signal_with_trigger settingsW acctL sigShort (some 200) ∧
    handle_signal settingsW marketNone acctL sigLive = acctL := by
  constructor
  · exact (C7_trigger_price_policy settingsW market150 acctL sigShort).1 rfl
  · exact ((C7_trigger_price_policy settingsW marketNone acctL
      sigLive).2 rfl).2 rfl

/-- C1 counterexample: with settings registered for strategy 1, one open
Long position and an incoming replay Short signal, `handle_signal`
produces exactly one Trade (closing the Long) but opens no new position at
all — the open set ends empty, with no Short position, contrary to the
claimed flip-and-reopen. -/
theorem C1_counterexample_no_short_reopened :
    (handle_signal settingsW marketNone acctL sigShort).trades.length = 1 ∧
    (handle_signal settingsW marketNone acctL sigShort).positions = [] := by
  constructor <;> rfl

/-- C1 amended: with settings registered, exactly one open Long position
for the strategy, an incoming Short signal and a resolvable trigger price
(the signal's embedded price for a replay signal, the live last traded
price otherwise), `handle_signal` closes the Long at the trigger price,
producing exactly one Trade, and opens no new position: the strategy ends
with no open positions. -/
theorem C1_amended_flip_closes_without_reopen (settings : SettingsMap)
    (market : MarketPrices) (acct : Account) (signal : SignalMessage)
    (st : StrategySettings) (p : Position) (tp : ℚ)
    (hnd : (acct.positions.map Position.id).Nodup)
    (hset : settings.get signal.strategy_id = some st)
    (hactive : acct.strategy_open_positions signal.strategy_id = [p])
    (hlong : p.order_side = OrderSide.Long)
    (hshort : signal.order_side = OrderSide.Short)
    (htrig : (if signal.is_back_test then some signal.price
      else market signal.symbol) = some tp) :
    (handle_signal settings market acct signal).trades =
      acct.trades ++ [⟨p, tp⟩] ∧
    (handle_signal settings market acct signal).positions =
      acct.positions.filter (fun q => ¬ q.id = p.id) ∧
    (handle_signal settings market acct signal).strategy_open_positions
      signal.strategy_id = [] := by
  have hmem : p ∈ acct.positions := by
    have hp : p ∈ acct.strategy_open_positions signal.strategy_id := by
      rw [hactive]; exact List.mem_singleton.mpr rfl
    exact List.mem_of_mem_filter hp
  have hfind : acct.positions.find? (fun q => q.id = p.id) = some p :=
    find?_id_eq_of_nodup acct.positions p hnd hmem
  have hstep :
      handle_signal settings market acct signal =
        acct.close_position p.id tp := by
    have h1 : handle_signal settings market acct signal =
        handle_signal_with_trigger settings acct signal (some tp) := by
      rw [handle_signal, htrig]
    rw [h1]
    simp only [handle_signal_with_trigger, hset, hactive,
      List.getLast?_singleton, List.length_singleton, List.foldl]
    rw [if_pos (show signal.order_side ≠ p.order_side by
        rw [hshort, hlong]; decide),
      if_neg (show ¬ (signal.order_side = p.order_side ∧
          1 < st.max_open_orders) by
        rw [hshort, hlong]; simp)]
  have hclose :
      acct.close_position p.id tp =
        { acct with
          positions := acct.positions.filter (fun q => ¬ q.id = p.id)
          trades := acct.trades ++ [⟨p, tp⟩] } := by
    unfold Account.close_position
    rw [hfind]
  rw [hstep, hclose]
  refine ⟨rfl, rfl, ?_⟩
  show (acct.positions.filter (fun q => ¬ q.id = p.id)).filter
      (fun q => q.strategy_id = signal.strategy_id) = []
  rw [List.filter_comm]
  have : acct.positions.filter
      (fun q => q.strategy_id = signal.strategy_id) = [p] := hactive
  rw [this]
  simp

/-- Witness for C1 amended at a concrete account with one open Long
position, once for a replay Short signal (trigger = embedded price 200)
and once for a live Short signal whose market lookup succeeds
(trigger = live price 150, not the signal's stale embedded 999). -/
theorem C1_amended_flip_closes_without_reopen_witness :
    (handle_signal settingsW marketNone acctL sigShort).trades =
      [⟨posL, 200⟩] ∧
    Account.strategy_open_positions
      (handle_signal settingsW marketNone acctL sigShort) 1 = [] ∧
    (handle_signal settingsW market150 acctL sigLiveShort).trades =
      [⟨posL, 150⟩] := by
  have h := C1_amended_flip_closes_without_reopen settingsW marketNone acctL
    sigShort ⟨2, 25, 4⟩ posL 200 (by simp [acctL]) rfl rfl rfl rfl rfl
  have h2 := C1_amended_flip_closes_without_reopen settingsW market150 acctL
    sigLiveShort ⟨2, 25, 4⟩ posL 150 (by simp [acctL]) rfl rfl rfl rfl rfl
  exact ⟨h.1, h.2.2, h2.1⟩

/-! ### Shape of one `handle_signal` step

Every outcome of `SignalManager::handle_signal` is one of: the account
unchanged; the strategy's snapshotted open positions all closed at the
trigger price; or one position opened at the trigger price, the latter only
when the snapshot was below `max_open_orders` or empty. -/

lemma handle_signal_with_trigger_cases (settings : SettingsMap)
    (acct : Account) (signal : SignalMessage) (trigger : Option ℚ) :
    handle_signal_with_trigger settings acct signal trigger = acct ∨
    (∃ cp, trigger = some cp ∧
      handle_signal_with_trigger settings acct signal trigger =
        (acct.strategy_open_positions signal.strategy_id).foldl
          (fun a p => a.close_position p.id cp) acct) ∨
    (∃ st cp, settings.get signal.strategy_id = some st ∧
      trigger = some cp ∧
      ((acct.strategy_open_positions signal.strategy_id).length
          < st.max_open_orders ∨
        acct.strategy_open_positions signal.strategy_id = []) ∧
      handle_signal_with_trigger settings acct signal trigger =
        acct.open_position signal.symbol st.margin_usd st.leverage
          signal.order_side signal.strategy_id cp) := by
  cases hset : SettingsMap.get settings signal.strategy_id with
  | none => left; simp [handle_signal_with_trigger, hset]
  | some st =>
    cases hl : (acct.strategy_open_positions signal.strategy_id).getLast? with
    | none =>
      have hempty : acct.strategy_open_positions signal.strategy_id = [] :=
        List.getLast?_eq_none_iff.mp hl
      cases trigger with
      | none => left; simp [handle_signal_with_trigger, hset, hl]
      | some cp =>
        right; right
        exact ⟨st, cp, rfl, rfl, Or.inr hempty,
          by simp [handle_signal_with_trigger, hset, hl]⟩
    | some last =>
      by_cases hside : signal.order_side = last.order_side
      · by_cases hlen :
          (acct.strategy_open_positions signal.strategy_id).length
            < st.max_open_orders
        · cases trigger with
          | none =>
            left; simp [handle_signal_with_trigger, hset, hl, hside, hlen]
          | some cp =>
            right; right
            exact ⟨st, cp, rfl, rfl, Or.inl hlen,
              by simp [handle_signal_with_trigger, hset, hl, hside, hlen]⟩
        · left; simp [handle_signal_with_trigger, hset, hl, hside, hlen]
      · cases trigger with
        | none => left; simp [handle_signal_with_trigger, hset, hl, hside]
        | some cp =>
          right; left
          exact ⟨cp, rfl,
            by simp [handle_signal_with_trigger, hset, hl, hside]⟩

/-- One `handle_signal` step keeps a strategy's open-position count within
its registered `max_open_orders`, provided that bound is at least 1. -/
lemma handle_signal_open_count_le (settings : SettingsMap)
    (market : MarketPrices) (acct : Account) (signal : SignalMessage)
    (sid : StrategyId) (st : StrategySettings)
    (hset : settings.get sid = some st) (hmax : 1 ≤ st.max_open_orders)
    (hcount : acct.open_count sid ≤ st.max_open_orders) :
    (handle_signal settings market acct signal).open_count sid ≤
      st.max_open_orders := by
  rcases handle_signal_with_trigger_cases settings acct signal
      (if signal.is_back_test then some signal.price
        else market signal.symbol) with
    h | ⟨cp, -, h⟩ | ⟨st', cp, hset', -, hcond, h⟩
  · rw [handle_signal, h]; exact hcount
  · rw [handle_signal, h]
    exact le_trans (open_count_foldl_close_le _ _ _ _) hcount
  · rw [handle_signal, h, open_count_open_position]
    by_cases hsid : signal.strategy_id = sid
    · rw [if_pos hsid]
      rw [hsid] at hset' hcond
      have hst : st' = st := by
        rw [hset] at hset'
        exact (Option.some.inj hset').symm
      rcases hcond with hlen | hempty
      · have : acct.open_count sid < st.max_open_orders := by
          rw [Account.open_count]; rw [hst] at hlen; exact hlen
        omega
      · have : acct.open_count sid = 0 := by
          rw [Account.open_count, hempty]; rfl
        omega
    · rw [if_neg hsid]
      omega

/-- C3 counterexample: with `max_open_orders = 0` registered for strategy
1, a first signal still opens a position unconditionally, so the open
count exceeds the cap. -/
theorem C3_counterexample_cap_zero :
    SettingsMap.get settings0 1 = some ⟨0, 25, 4⟩ ∧
    (handle_signal settings0 marketNone Account.empty sigLong).open_count 1
      = 1 := ⟨rfl, rfl⟩

/-- C3 amended: provided the registered `max_open_orders` is at least 1,
the number of concurrently open positions owned by a strategy never rises
above it over any sequence of handled signals (with `max_open_orders = 0`,
a first signal still opens one position). In particular, with
`max_open_orders = 2`, three consecutive same-side signals leave at most 2
open positions and the third changes nothing. -/
theorem C3_amended_open_positions_cap (settings : SettingsMap)
    (market : MarketPrices) (sid : StrategyId) (st : StrategySettings)
    (hset : settings.get sid = some st) (hmax : 1 ≤ st.max_open_orders)
    (acct : Account) (signals : List SignalMessage)
    (hcount : acct.open_count sid ≤ st.max_open_orders) :
    (process_signals settings market acct signals).open_count sid ≤
      st.max_open_orders := by
  induction signals generalizing acct with
  | nil => exact hcount
  | cons s ss ih =>
    exact ih (handle_signal settings market acct s)
      (handle_signal_open_count_le settings market acct s sid st hset hmax
        hcount)

/-- Witness for C3 amended: three consecutive same-side replay signals with
`max_open_orders = 2` leave at most 2 open positions, the count after two
signals is exactly 2, and the third signal is a no-op. -/
theorem C3_amended_open_positions_cap_witness :
    (process_signals settingsW marketNone Account.empty
      [sigLong, sigLong, sigLong]).open_count 1 ≤ 2 ∧
    (process_signals settingsW marketNone Account.empty
      [sigLong, sigLong]).open_count 1 = 2 ∧
    process_signals settingsW marketNone Account.empty
        [sigLong, sigLong, sigLong] =
      process_signals settingsW marketNone Account.empty
        [sigLong, sigLong] := by
  refine ⟨?_, rfl, rfl⟩
  exact C3_amended_open_positions_cap settingsW marketNone 1 ⟨2, 25, 4⟩ rfl
    (by decide) Account.empty [sigLong, sigLong, sigLong] (by decide)

/-- C10: with an empty trade list, `calc_max_profit` returns 0 while
`calc_max_drawdown` returns its `f64::MAX` seed, so a trade-less backtest
reports `StrategyResult.max_drawdown` equal to the largest finite `f64`
value rather than 0. -/
theorem C10_empty_trades_drawdown_sentinel :
    calc_max_profit [] = 0 ∧ calc_max_drawdown [] = f64MAX ∧
    (backtest_result settingsW marketNone Account.empty [] "BTC-USDT" 0
      0).1.max_drawdown = f64MAX ∧
    f64MAX ≠ 0 := by
  refine ⟨rfl, rfl, rfl, ?_⟩
  norm_num [f64MAX]

/-- C5: the factory arm for the name `"RsiEmaSma"` constructs the plain
`Rsi` algorithm (`Rsi::new`), not the RSI-gated multi-SMA+EMA variant whose
implementation sits unused in `src/algorithm/rsi_ema_sma.rs`. -/
theorem C5_rsi_ema_sma_name_constructs_rsi :
    build_algorithm "RsiEmaSma" "1m" (JsonValue.obj []) =
      Except.ok (AlgorithmInstance.rsi 60000 (JsonValue.obj [])) := rfl

/-- C9: a `RsiEmaSma::set_params` payload that omits `ema_period` resets it
to the hardcoded default 9, while omitting `rsi_period`,
`short_sma_period`, `medium_sma_period` or `long_sma_period` keeps each at
its previously configured value. -/
theorem C9_set_params_ema_period_reset (s : RsiEmaSma) (params : JsonValue)
    (s' : RsiEmaSma) (h : s.set_params params = Except.ok s') :
    (params.get "ema_period" = none → s'.ema_period = 9) ∧
    (params.get "rsi_period" = none → s'.rsi_period = s.rsi_period) ∧
    (params.get "short_sma_period" = none →
      s'.short_sma_period = s.short_sma_period) ∧
    (params.get "medium_sma_period" = none →
      s'.medium_sma_period = s.medium_sma_period) ∧
    (params.get "long_sma_period" = none →
      s'.long_sma_period = s.long_sma_period) := by
  simp only [RsiEmaSma.set_params, Except.ok.injEq] at h
  subst h
  refine ⟨fun hg => ?_, fun hg => ?_, fun hg => ?_, fun hg => ?_, fun hg => ?_⟩ <;>
    simp [unwrap_or, parse_usize_from_value, hg]

/-- Witness for C9 at a concrete instance with `ema_period = 99` and
`rsi_period = 42`: an empty update payload resets `ema_period` to 9 and
keeps `rsi_period` at 42. -/
theorem C9_set_params_ema_period_reset_witness :
    rsiEmaSmaW.set_params (JsonValue.obj []) = Except.ok rsiEmaSmaW2 ∧
    rsiEmaSmaW2.ema_period = 9 ∧ rsiEmaSmaW2.rsi_period = 42 := by
  have h : rsiEmaSmaW.set_params (JsonValue.obj []) = Except.ok rsiEmaSmaW2 :=
    rfl
  have h2 := C9_set_params_ema_period_reset rsiEmaSmaW (JsonValue.obj [])
    rsiEmaSmaW2 h
  exact ⟨h, h2.1 rfl, h2.2.1 rfl⟩

/-- C6 counterexample: a malformed payload (`rsi_period` bound to the
string `"abc"`) is accepted by `RsiEmaSma::set_params` — the call succeeds
instead of returning an `InvalidParams` error, silently keeping the
previous `rsi_period`. -/
theorem C6_counterexample_malformed_params_accepted :
    rsiEmaSmaW.set_params badParams = Except.ok rsiEmaSmaW3 ∧
    (rsiEmaSmaW.set_params badParams).isOk = true ∧
    rsiEmaSmaW3.rsi_period = rsiEmaSmaW.rsi_period := ⟨rfl, rfl, rfl⟩

/-- C6 amended: `RsiEmaSma::set_params` never fails; a missing or
malformed `rsi_period`/`short_sma_period`/`medium_sma_period`/
`long_sma_period` silently keeps its previously configured value,
a missing or malformed `ema_period` falls back to the default 9, and the
stored params are replaced wholesale. -/
theorem C6_amended_set_params_never_fails (s : RsiEmaSma)
    (params : JsonValue) :
    ∃ s', s.set_params params = Except.ok s' ∧
      ((parse_usize_from_value "rsi_period" params).isOk = false →
        s'.rsi_period = s.rsi_period) ∧
      ((parse_usize_from_value "short_sma_period" params).isOk = false →
        s'.short_sma_period = s.short_sma_period) ∧
      ((parse_usize_from_value "medium_sma_period" params).isOk = false →
        s'.medium_sma_period = s.medium_sma_period) ∧
      ((parse_usize_from_value "long_sma_period" params).isOk = false →
        s'.long_sma_period = s.long_sma_period) ∧
      ((parse_usize_from_value "ema_period" params).isOk = false →
        s'.ema_period = 9) ∧
      s'.params = params := by
  refine ⟨_, rfl, ?_, ?_, ?_, ?_, ?_, rfl⟩ <;> intro h <;>
    simp only [RsiEmaSma.set_params, unwrap_or] <;>
    [cases hp : parse_usize_from_value "rsi_period" params;
     cases hp : parse_usize_from_value "short_sma_period" params;
     cases hp : parse_usize_from_value "medium_sma_period" params;
     cases hp : parse_usize_from_value "long_sma_period" params;
     cases hp : parse_usize_from_value "ema_period" params] <;>
    simp [hp] <;> simp [hp, Except.isOk, Except.toBool] at h

/-- Witness for C6 amended at the malformed payload `badParams`: the call
succeeds and `rsi_period` keeps its previous value 42. -/
theorem C6_amended_set_params_never_fails_witness :
    ∃ s', rsiEmaSmaW.set_params badParams = Except.ok s' ∧
      s'.rsi_period = rsiEmaSmaW.rsi_period := by
  obtain ⟨s', hok, hrsi, -⟩ :=
    C6_amended_set_params_never_fails rsiEmaSmaW badParams
  exact ⟨s', hok, hrsi rfl⟩

/-! ### Ledger well-formedness -/

lemma wf_empty : Account.empty.wf := by
  constructor <;> simp [Account.empty]

lemma wf_close_position (acct : Account) (pid : PositionId) (cp : ℚ)
    (h : acct.wf) : (acct.close_position pid cp).wf := by
  obtain ⟨hb, hnd⟩ := h
  constructor
  · intro p hp
    rw [close_position_positions] at hp
    rw [close_position_next_id]
    exact hb p (List.mem_of_mem_filter hp)
  · rw [close_position_positions]
    exact List.Nodup.sublist
      (List.Sublist.map Position.id (List.filter_sublist _)) hnd

lemma wf_foldl_close (ps : List Position) (acct : Account) (cp : ℚ)
    (h : acct.wf) :
    ((ps.foldl (fun a p => a.close_position p.id cp) acct)).wf := by
  induction ps generalizing acct with
  | nil => exact h
  | cons p rest ih =>
    exact ih _ (wf_close_position acct p.id cp h)

lemma wf_open_position (acct : Account) (symbol : String)
    (margin_usd leverage : ℚ) (side : OrderSide) (sid' : StrategyId)
    (cp : ℚ) (h : acct.wf) :
    (acct.open_position symbol margin_usd leverage side sid' cp).wf := by
  obtain ⟨hb, hnd⟩ := h
  constructor
  · intro p hp
    simp only [Account.open_position] at hp ⊢
    rcases List.mem_append.mp hp with hmem | hmem
    · exact Nat.lt_succ_of_lt (hb p hmem)
    · rw [List.mem_singleton] at hmem
      subst hmem
      exact Nat.lt_succ_self _
  · simp only [Account.open_position, List.map_append]
    rw [List.nodup_append]
    refine ⟨hnd, List.nodup_singleton _, ?_⟩
    intro a ha ha'
    rw [List.map_singleton, List.mem_singleton] at ha'
    subst ha'
    obtain ⟨p, hp, hpid⟩ := List.mem_map.mp ha
    exact absurd hpid (Nat.ne_of_lt (hb p hp))

lemma wf_handle_signal (settings : SettingsMap) (market : MarketPrices)
    (acct : Account) (signal : SignalMessage) (h : acct.wf) :
    (handle_signal settings market acct signal).wf := by
  rcases handle_signal_with_trigger_cases settings acct signal
      (if signal.is_back_test then some signal.price
        else market signal.symbol) with
    hc | ⟨cp, -, hc⟩ | ⟨st, cp, -, -, -, hc⟩
  · rw [handle_signal, hc]; exact h
  · rw [handle_signal, hc]; exact wf_foldl_close _ _ _ h
  · rw [handle_signal, hc]; exact wf_open_position _ _ _ _ _ _ _ h

lemma wf_process_signals (settings : SettingsMap) (market : MarketPrices)
    (signals : List SignalMessage) (acct : Account) (h : acct.wf) :
    (process_signals settings market acct signals).wf := by
  induction signals generalizing acct with
  | nil => exact h
  | cons s ss ih =>
    exact ih _ (wf_handle_signal settings market acct s h)

/-- Force-closing every open position of a well-formed ledger at its own
open price empties the open set and appends, in order, one trade per
position carrying that position's open price as close price. -/
lemma foldl_close_self (ps : List Position) :
    ∀ (tr : List TradeTx) (nid : Nat), (ps.map Position.id).Nodup →
    ((ps.map (fun p => (p.id, p.open_price))).foldl
      (fun a item => a.close_position item.1 item.2)
      (⟨ps, tr, nid⟩ : Account)) =
    ⟨[], tr ++ ps.map (fun p => (⟨p, p.open_price⟩ : TradeTx)), nid⟩ := by
  induction ps with
  | nil => intro tr nid _; simp
  | cons p rest ih =>
    intro tr nid hnd
    rw [List.map_cons, List.nodup_cons] at hnd
    have hids : ∀ q ∈ rest, ¬ q.id = p.id := fun q hq he =>
      hnd.1 (he ▸ List.mem_map_of_mem Position.id hq)
    have hfilter : rest.filter (fun q => ¬ q.id = p.id) = rest :=
      List.filter_eq_self.mpr (fun a ha => by simpa using hids a ha)
    have hfiltercons :
        (p :: rest).filter (fun q => ¬ q.id = p.id) = rest := by
      rw [List.filter_cons_of_neg (by simp)]
      exact hfilter
    have hclose :
        (Account.close_position ⟨p :: rest, tr, nid⟩ p.id p.open_price) =
          ⟨rest, tr ++ [TradeTx.mk p p.open_price], nid⟩ := by
      unfold Account.close_position
      rw [List.find?_cons_of_pos _ (by simp)]
      show (⟨(p :: rest).filter (fun q => ¬ q.id = p.id),
        tr ++ [TradeTx.mk p p.open_price], nid⟩ : Account) =
          ⟨rest, tr ++ [TradeTx.mk p p.open_price], nid⟩
      rw [hfiltercons]
    have hrec := ih (tr ++ [TradeTx.mk p p.open_price]) nid hnd.2
    rw [List.map_cons, List.foldl_cons, hclose, hrec]
    simp

/-- C2 counterexample: a backtest whose single replay Long signal opens a
position at 100 while the final candle closes at 200 force-closes that
position at 100 (its open price), not at the final candle's close. -/
theorem C2_counterexample_force_close_price :
    (backtest_result settingsW marketNone Account.empty [sigLong]
      "BTC-USDT" 100 200).2.trades.map TradeTx.close_price = [100] ∧
    (backtest_result settingsW marketNone Account.empty [sigLong]
      "BTC-USDT" 100 200).1.period_end_price = 200 ∧
    (100 : ℚ) ≠ 200 := by
  refine ⟨rfl, rfl, by norm_num⟩

/-- C2 amended: after the replayed signals are processed, `BackTest::result`
force-closes every position still open at that position's own open price
(not the final candle's close): the final open set is empty and the final
trade list is the processed trade list extended by one trade per remaining
position, each closed at its open price. -/
theorem C2_amended_force_close_at_open_price (settings : SettingsMap)
    (market : MarketPrices) (signals : List SignalMessage) (symbol : String)
    (psp pep : ℚ) :
    (backtest_result settings market Account.empty signals symbol psp
      pep).2.positions = [] ∧
    (backtest_result settings market Account.empty signals symbol psp
      pep).2.trades =
      (process_signals settings market Account.empty signals).trades ++
        (process_signals settings market Account.empty
          signals).positions.map (fun p => (⟨p, p.open_price⟩ : TradeTx)) := by
  have hwf : (process_signals settings market Account.empty signals).wf :=
    wf_process_signals settings market signals Account.empty wf_empty
  rcases heq : process_signals settings market Account.empty signals with
    ⟨pos1, tr1, nid1⟩
  rw [heq] at hwf
  have hfold := foldl_close_self pos1 tr1 nid1 hwf.2
  simp only [backtest_result, heq, hfold]
  exact ⟨trivial, trivial⟩

/-! ### Metric fold / prefix-sum bridges -/

lemma ite_lt_eq_max (a b : ℚ) : (if a < b then b else a) = max a b := by
  rcases le_or_lt b a with h | h
  · simp [not_lt.mpr h, max_eq_left h]
  · simp [h, max_eq_right h.le]

lemma ite_lt_eq_min (a b : ℚ) : (if b < a then b else a) = min a b := by
  rcases le_or_lt a b with h | h
  · simp [not_lt.mpr h, min_eq_left h]
  · simp [h, min_eq_right h.le]

/-- Every `scanl` result is its seed followed by its own tail. -/
lemma scanl_eq_cons_tail (f : ℚ → ℚ → ℚ) (c : ℚ) (l : List ℚ) :
    List.scanl f c l = c :: (List.scanl f c l).tail := by
  cases l <;> rfl

/-- The max-tracking pair fold of `calc_max_profit` computes the fold of
`max` over the proper prefix sums. -/
lemma foldl_pair_max (trades : List TradeTx) :
    ∀ (m c : ℚ),
      (trades.foldl (fun st t =>
        (if st.1 < st.2 + t.calc_profit then st.2 + t.calc_profit
          else st.1, st.2 + t.calc_profit)) (m, c)).1 =
      (List.scanl (· + ·) c
        (trades.map TradeTx.calc_profit)).tail.foldl max m := by
  induction trades with
  | nil => intro m c; rfl
  | cons t l ih =>
    intro m c
    rw [List.foldl_cons, List.map_cons, List.scanl_cons]
    rw [ih]
    rw [List.cons_append, List.nil_append, List.tail_cons]
    rw [scanl_eq_cons_tail (· + ·) (c + t.calc_profit)
      (l.map TradeTx.calc_profit), List.foldl_cons, ite_lt_eq_max]
    simp

/-- The min-tracking pair fold of `calc_max_drawdown` computes the fold of
`min` over the proper prefix sums. -/
lemma foldl_pair_min (trades : List TradeTx) :
    ∀ (m c : ℚ),
      (trades.foldl (fun st t =>
        (if st.2 + t.calc_profit < st.1 then st.2 + t.calc_profit
          else st.1, st.2 + t.calc_profit)) (m, c)).1 =
      (List.scanl (· + ·) c
        (trades.map TradeTx.calc_profit)).tail.foldl min m := by
  induction trades with
  | nil => intro m c; rfl
  | cons t l ih =>
    intro m c
    rw [List.foldl_cons, List.map_cons, List.scanl_cons]
    rw [ih]
    rw [List.cons_append, List.nil_append, List.tail_cons]
    rw [scanl_eq_cons_tail (· + ·) (c + t.calc_profit)
      (l.map TradeTx.calc_profit), List.foldl_cons, ite_lt_eq_min]
    simp

/-- `calc_max_profit` as a fold over the reached balances. -/
lemma calc_max_profit_eq_foldl (trades : List TradeTx) :
    calc_max_profit trades =
      (reached_balances trades).tail.foldl max 0 :=
  foldl_pair_max trades 0 0

/-- `calc_max_drawdown` as a fold over the reached balances. -/
lemma calc_max_drawdown_eq_foldl (trades : List TradeTx) :
    calc_max_drawdown trades =
      (reached_balances trades).tail.foldl min f64MAX :=
  foldl_pair_min trades f64MAX 0

/-- C4 counterexample: for a single trade of profit +100, the running
cumulative sums from a zero baseline reach {0, 100} whose lowest value is
the baseline 0, but `calc_max_drawdown` returns 100 — the code's minimum
tracking starts from the `f64::MAX` seed, not from the zero baseline. -/
theorem C4_counterexample_drawdown_ignores_baseline :
    calc_max_drawdown tradesP100 = 100 ∧
    spec_max_drawdown tradesP100 = 0 ∧ (100 : ℚ) ≠ 0 := by
  refine ⟨?_, ?_, by norm_num⟩
  · have htail : (reached_balances tradesP100).tail = [100] := by
      norm_num [reached_balances, tradesP100, mkLongTrade,
        TradeTx.calc_profit, List.scanl]
    rw [calc_max_drawdown_eq_foldl, htail, List.foldl_cons, List.foldl_nil,
      min_eq_right]
    norm_num [f64MAX]
  · norm_num [spec_max_drawdown, reached_balances, tradesP100, mkLongTrade,
      TradeTx.calc_profit, List.scanl, List.foldl_cons, List.foldl_nil,
      min_def]

/-- C4 amended: `calc_max_profit` is exactly the highest value reached by
the running cumulative profit sum tracked from a zero baseline, while
`calc_max_drawdown` is the lowest value the running sum reaches after the
first trade — the zero baseline is not counted (when the first reached
balance does not exceed `f64::MAX`, as every actual `f64` value does). For
profits [+100, -50, +200, -300] this gives 250 and -50. -/
theorem C4_amended_metrics (trades : List TradeTx) :
    calc_max_profit trades = spec_max_profit trades ∧
    (∀ x xs, (reached_balances trades).tail = x :: xs → x ≤ f64MAX →
      calc_max_drawdown trades = xs.foldl min x) := by
  constructor
  · rw [calc_max_profit_eq_foldl, spec_max_profit, reached_balances]
    conv_rhs => rw [scanl_eq_cons_tail (· + ·) 0
      (trades.map TradeTx.calc_profit)]
    rw [List.foldl_cons, max_self]
  · intro x xs heq hx
    rw [calc_max_drawdown_eq_foldl, heq, List.foldl_cons,
      min_eq_right hx]

/-- Witness for C4 amended at the four-trade scenario with profits
[+100, -50, +200, -300]: `max_profit` is 250 and `max_drawdown` is -50. -/
theorem C4_amended_metrics_witness :
    calc_max_profit trades4 = 250 ∧ calc_max_drawdown trades4 = -50 := by
  have h := C4_amended_metrics trades4
  have heq : (reached_balances trades4).tail = [100, 50, 250, -50] := by
    norm_num [reached_balances, trades4, mkLongTrade, TradeTx.calc_profit,
      List.scanl]
  constructor
  · rw [h.1]
    norm_num [spec_max_profit, reached_balances, trades4, mkLongTrade,
      TradeTx.calc_profit, List.scanl, List.foldl_cons, List.foldl_nil,
      max_def]
  · rw [h.2 100 [50, 250, -50] heq (by norm_num [f64MAX])]
    norm_num [List.foldl_cons, List.foldl_nil, min_def]

/-- C8: `EmaSmaCrossover::evaluate` returns Ignore while fewer candles than
the required lookback (`sma_period`) are buffered; past warm-up it returns
Long exactly when the fast EMA exceeds the slow SMA, Short exactly when
the EMA is below the SMA, and on a tie falls back to comparing the
candle's close against the SMA (Long above, Short below, Ignore on double
tie). -/
theorem C8_crossover_policy (st : EmaSmaCrossover) (kline : Kline) :
    (st.data_points.length + 1 < st.sma_period →
      (st.evaluate kline).1 = AlgorithmEvalResult.Ignore) ∧
    (st.sma_period ≤ st.data_points.length + 1 →
      ((st.evaluate kline).1 = AlgorithmEvalResult.Long ↔
        ((st.sma.next kline.close).1 < (st.ema.next kline.close).1 ∨
          ((st.ema.next kline.close).1 = (st.sma.next kline.close).1 ∧
            (st.sma.next kline.close).1 < kline.close))) ∧
      ((st.evaluate kline).1 = AlgorithmEvalResult.Short ↔
        ((st.ema.next kline.close).1 < (st.sma.next kline.close).1 ∨
          ((st.ema.next kline.close).1 = (st.sma.next kline.close).1 ∧
            kline.close < (st.sma.next kline.close).1))) ∧
      ((st.evaluate kline).1 = AlgorithmEvalResult.Ignore ↔
        ((st.ema.next kline.close).1 = (st.sma.next kline.close).1 ∧
          kline.close = (st.sma.next kline.close).1))) := by
  rcases he : st.ema.next kline.close with ⟨ev, es⟩
  rcases hs : st.sma.next kline.close with ⟨sv, ss⟩
  constructor
  · intro h
    simp [EmaSmaCrossover.evaluate, not_le.mpr h]
  · intro h
    simp only [EmaSmaCrossover.evaluate, he, hs, List.length_append,
      List.length_singleton]
    rw [if_pos h]
    rcases lt_trichotomy sv ev with h1 | h1 | h1
    · rw [if_pos h1]
      simp [h1, lt_asymm h1, ne_of_gt h1]
    · subst h1
      rw [if_neg (lt_irrefl sv), if_neg (lt_irrefl sv)]
      rcases lt_trichotomy sv kline.close with h2 | h2 | h2
      · rw [if_pos h2]
        simp [h2, lt_irrefl, lt_asymm h2, ne_of_gt h2]
      · rw [if_neg (by rw [h2]; exact lt_irrefl _),
          if_neg (by rw [h2]; exact lt_irrefl _)]
        simp [h2, lt_irrefl]
      · rw [if_neg (lt_asymm h2), if_pos h2]
        simp [h2, lt_irrefl, lt_asymm h2, ne_of_lt h2]
    · rw [if_neg (lt_asymm h1), if_pos h1]
      simp [h1, lt_asymm h1, ne_of_lt h1]

/-- Witness for C8: a fresh crossover instance with lookback 2 returns
Ignore on its first candle, and a concrete instance past warm-up whose EMA
value (6) exceeds its SMA value (4) returns Long. -/
theorem C8_crossover_policy_witness :
    (crossW.evaluate (klineAt 4)).1 = AlgorithmEvalResult.Ignore ∧
    (crossW2.evaluate (klineAt 4)).1 = AlgorithmEvalResult.Long := by
  constructor
  · exact (C8_crossover_policy crossW (klineAt 4)).1 (by decide)
  · refine ((C8_crossover_policy crossW2 (klineAt 4)).2 (by decide)).1.mpr
      (Or.inl ?_)
    show ((crossW2.sma.next (klineAt 4).close).1 : ℚ) <
      (crossW2.ema.next (klineAt 4).close).1
    norm_num [Ta.ExponentialMovingAverage.next, Ta.SimpleMovingAverage.next,
      crossW2, klineAt]

end Raderbot
